import Mathlib

/-!
Verification development for the snapshot producer / snapshot server of
`web_dashboard.py`.

The Python program is shallowly embedded: prices are exact rationals (`ℚ`),
dictionaries with a fixed key set become association lists or structures,
Python `dict` keys that may be absent (`pos.get('ltp', ...)`) become `Option`
fields, and every call to `random.uniform(lo, hi)` becomes an explicit input
parameter of the operation that draws it.  The Upstox HTTP client is out of
scope per the design (it is the injected capability
`fetch_price(instrument_id) -> price | unavailable`); it is embedded as a
function `String → Option ℚ` where `none` models every failure mode that the
Python wrappers collapse to `None`, and `some v` models a successful fetch of
the numeric value `v`.  Python truthiness of `if ltp:` is modelled faithfully:
a fetched value of `0` is treated like `None` by the source.
-/

namespace AlgotDashboard

/-- Rounding to two decimal places, modelling the `round(x, 2)` calls that
`TradingDataSimulator.get_data` applies when serialising the snapshot. -/
def round2 (q : ℚ) : ℚ := ((round (100 * q) : ℤ) : ℚ) / 100

/-- One value of the `self.mcx_prices` dictionary: a tracked commodity with its
current price, its fixed reference (base) price, lot size and unit. -/
structure McxEntry where
  price : ℚ
  base : ℚ
  lot_size : ℕ
  unit : String
deriving DecidableEq

/-- One element of `self.positions`.  The Python object is a dict; the keys
`symbol`, `type`, `qty`, `avg_price`, `source`, `exchange` are present from
construction, while `ltp`, `pnl`, `pnl_pct`, `change`, `change_pct` are added
by the first `_update_positions` call, hence are `Option`-valued here. -/
structure Position where
  symbol : String
  type : String
  qty : ℚ
  avg_price : ℚ
  source : String
  exchange : String
  ltp : Option ℚ := none
  pnl : Option ℚ := none
  pnl_pct : Option ℚ := none
  change : Option ℚ := none
  change_pct : Option ℚ := none
deriving DecidableEq

/-- The mutable state of `TradingDataSimulator` (with the `access_token` and
`is_connected` fields of its embedded `UpstoxDataFetcher` inlined; the fetcher
has no other state that the modelled operations read). `last_update` holds the
already-formatted `HH:MM:SS` timestamp string. -/
structure TradingDataSimulator where
  access_token : String
  is_connected : Bool
  nifty_base : ℚ
  banknifty_base : ℚ
  nifty_price : ℚ
  banknifty_price : ℚ
  mcx_prices : List (String × McxEntry)
  positions : List Position
  trades_today : ℕ
  realized_pnl : ℚ
  last_update : String
  use_real_data : Bool
deriving DecidableEq

/-- The hardcoded fallback access token from `UpstoxDataFetcher.__init__`.
Only its (non-)emptiness is ever observed by the modelled code, through the
Python truthiness test `if self.upstox.access_token:`. -/
def hardcodedToken : String :=
  "eyJ0eXAiOiJKV1QiLCJrZXlfaWQiOiJza192MS4wIiwiYWxnIjoiSFMyNTYifQ.jwt-payload"

/-- `self.mcx_prices` as initialised by `TradingDataSimulator.__init__`. -/
def initMcxPrices : List (String × McxEntry) :=
  [("CRUDEOIL", ⟨5755.0, 5755.0, 100, "BBL"⟩),
   ("GOLD", ⟨85000.0, 85000.0, 100, "10GM"⟩),
   ("GOLDM", ⟨85200.0, 85200.0, 10, "1GM"⟩),
   ("SILVER", ⟨95000.0, 95000.0, 30, "KG"⟩),
   ("SILVERM", ⟨95000.0, 95000.0, 5, "KG"⟩),
   ("NATURALGAS", ⟨280.0, 280.0, 1250, "MMBTU"⟩),
   ("COPPER", ⟨850.0, 850.0, 2500, "KG"⟩)]

/-- `self.positions` as initialised by `TradingDataSimulator.__init__`. -/
def initPositions : List Position :=
  [{ symbol := "CRUDEOIL25FEBFUT", type := "LONG", qty := 100, avg_price := 6400.0,
     source := "PAPER", exchange := "MCX" },
   { symbol := "GOLD25FEBFUT", type := "LONG", qty := 100, avg_price := 78000.0,
     source := "PAPER", exchange := "MCX" },
   { symbol := "SILVER25MARFUT", type := "SHORT", qty := 30, avg_price := 93000.0,
     source := "PAPER", exchange := "MCX" }]

/-- The producer state built by `TradingDataSimulator.__init__` (the
`UPSTOX_ACCESS_TOKEN` environment override is elided: either way the token is
a non-empty string).  `last_update` starts as the formatted start-of-process
time, whose exact value no claim observes. -/
def initState : TradingDataSimulator :=
  { access_token := hardcodedToken
    is_connected := false
    nifty_base := 25200.50
    banknifty_base := 52800.75
    nifty_price := 25200.50
    banknifty_price := 52800.75
    mcx_prices := initMcxPrices
    positions := initPositions
    trades_today := 5
    realized_pnl := 2500.0
    last_update := ""
    use_real_data := false }

/-- Dictionary read `self.mcx_prices[k]`, guarded in the source by a
`k in self.mcx_prices` test, hence `Option`-valued here. -/
def lookupMcx (m : List (String × McxEntry)) (k : String) : Option McxEntry :=
  (m.find? (fun p => p.1 == k)).map Prod.snd

/-- Dictionary write `self.mcx_prices[sym]['price'] = v`. -/
def setMcxPrice (m : List (String × McxEntry)) (sym : String) (v : ℚ) :
    List (String × McxEntry) :=
  m.map (fun p => if p.1 = sym then (p.1, { p.2 with price := v }) else p)

/-- One iteration of the `for symbol in self.mcx_prices:` loop of
`_fetch_real_data`: `ltp = self.upstox.get_mcx_ltp(symbol)` followed by
`if ltp: self.mcx_prices[symbol]['price'] = float(ltp)`.  Python truthiness is
modelled exactly: a fetched value of `0` is falsy and leaves the dictionary
untouched, as does an unavailable fetch (`None`). -/
def fetchMcxStep (fetch : String → Option ℚ) (m : List (String × McxEntry))
    (sym : String) : List (String × McxEntry) :=
  match fetch sym with
  | some v => if v ≠ 0 then setMcxPrice m sym v else m
  | none => m

/-- `TradingDataSimulator._fetch_real_data`: one best-effort fetch for NIFTY
(which on truthy success also sets `use_real_data = True`), one for BANKNIFTY,
then one per key of `self.mcx_prices`, in insertion order. -/
def fetchRealData (fetch : String → Option ℚ) (s : TradingDataSimulator) :
    TradingDataSimulator :=
  let s1 :=
    match fetch "NIFTY" with
    | some v => if v ≠ 0 then { s with nifty_price := v, use_real_data := true } else s
    | none => s
  let s2 :=
    match fetch "BANKNIFTY" with
    | some v => if v ≠ 0 then { s1 with banknifty_price := v } else s1
    | none => s1
  { s2 with
    mcx_prices := (s2.mcx_prices.map Prod.fst).foldl (fetchMcxStep fetch) s2.mcx_prices }

/-- The sequence of instrument identifiers `_fetch_real_data` requests from
the fetch capability, in source order: one `get_index_ltp` call each for
NIFTY and BANKNIFTY, then one `get_mcx_ltp` call per key of
`self.mcx_prices`. -/
def fetchCalls (s : TradingDataSimulator) : List String :=
  "NIFTY" :: "BANKNIFTY" :: s.mcx_prices.map Prod.fst

/-- `TradingDataSimulator._simulate_data`, with the `random.uniform` draws
passed explicitly: `dn` models `random.uniform(-20, 20)` for NIFTY, `db`
models `random.uniform(-50, 50)` for BANKNIFTY, and `dm sym` models the draw
from `[-volatility, volatility]` (`volatility = base * 0.002`) for commodity
`sym`.  Each commodity price is then floored at 80% of its base; the index
prices are not floored. -/
def simulateData (dn db : ℚ) (dm : String → ℚ) (s : TradingDataSimulator) :
    TradingDataSimulator :=
  { s with
    use_real_data := false
    nifty_price := s.nifty_price + dn
    banknifty_price := s.banknifty_price + db
    mcx_prices := s.mcx_prices.map (fun p =>
      (p.1, { p.2 with price := max (p.2.base * 0.8) (p.2.price + dm p.1) })) }

/-- Python `str.replace` on character lists, for a non-empty pattern (the only
use here is the pattern `FUT`): scan left to right, replacing each
non-overlapping occurrence of `pat` by `rep`; the fuel argument (instantiated
with the list length, an upper bound on the number of scan steps) makes the
recursion structural. -/
def replaceListAux (pat rep : List Char) : ℕ → List Char → List Char
  | _, [] => []
  | 0, l => l
  | fuel + 1, c :: rest =>
      if pat.isPrefixOf (c :: rest)
      then rep ++ replaceListAux pat rep fuel ((c :: rest).drop pat.length)
      else c :: replaceListAux pat rep fuel rest

/-- Python `s.replace(pat, rep)` for a non-empty pattern. -/
def pyReplace (s pat rep : String) : String :=
  String.mk (replaceListAux pat.data rep.data s.data.length s.data)

/-- The underlying extraction of `_update_positions`:
`''.join([c for c in symbol if c.isalpha()]).replace('FUT', '')`. -/
def extractUnderlying (symbol : String) : String :=
  pyReplace (String.mk (symbol.data.filter Char.isAlpha)) "FUT" ""

/-- The value `pos['ltp']` holds after the LTP-determination step of the
`_update_positions` loop body: an MCX position takes the tracked price of its
extracted underlying when that is a tracked commodity and otherwise keeps its
previous LTP (defaulting to `avg_price` when the key is absent); a non-MCX
position gets its previous LTP (defaulting likewise) perturbed by the factor
`1 + u` with `u` drawn from `random.uniform(-0.02, 0.02)`, floored at
`0.05`. -/
def positionLtp (mcx : List (String × McxEntry)) (u : ℚ) (pos : Position) : ℚ :=
  if pos.exchange = "MCX" then
    match lookupMcx mcx (extractUnderlying pos.symbol) with
    | some e => e.price
    | none => pos.ltp.getD pos.avg_price
  else
    max 0.05 ((pos.ltp.getD pos.avg_price) * (1 + u))

/-- The body of the `for pos in self.positions:` loop of `_update_positions`:
determine the LTP, then recompute `pnl`, `pnl_pct`, `change`, `change_pct`. -/
def updateOnePosition (mcx : List (String × McxEntry)) (u : ℚ) (pos : Position) :
    Position :=
  let l := positionLtp mcx u pos
  let pnl := if pos.type = "LONG" then (l - pos.avg_price) * pos.qty
             else (pos.avg_price - l) * pos.qty
  let pnl_pct := if pos.avg_price > 0 then pnl / (pos.avg_price * pos.qty) * 100 else 0
  let change := l - pos.avg_price
  let change_pct := if pos.avg_price > 0 then change / pos.avg_price * 100 else 0
  { pos with ltp := some l, pnl := some pnl, pnl_pct := some pnl_pct,
             change := some change, change_pct := some change_pct }

/-- The `for pos in self.positions:` loop of `_update_positions`, the `i`-th
iteration drawing `u i` for its (possible) `random.uniform(-0.02, 0.02)`
call. -/
def updatePositionsList (mcx : List (String × McxEntry)) (u : ℕ → ℚ) :
    ℕ → List Position → List Position
  | _, [] => []
  | i, pos :: rest =>
      updateOnePosition mcx (u i) pos :: updatePositionsList mcx u (i + 1) rest

/-- `TradingDataSimulator._update_positions`. -/
def updatePositions (u : ℕ → ℚ) (s : TradingDataSimulator) : TradingDataSimulator :=
  { s with positions := updatePositionsList s.mcx_prices u 0 s.positions }

/-- `TradingDataSimulator.update` — one refresh: fetch real data when the
access token is truthy (a non-empty string), otherwise simulate; then update
the positions and stamp `last_update` with the current time `now`. -/
def update (fetch : String → Option ℚ) (dn db : ℚ) (dm : String → ℚ) (u : ℕ → ℚ)
    (now : String) (s : TradingDataSimulator) : TradingDataSimulator :=
  let s1 := if s.access_token ≠ "" then fetchRealData fetch s else simulateData dn db dm s
  let s2 := updatePositions u s1
  { s2 with last_update := now }

/-- The per-index JSON objects (`nifty`, `banknifty`) of `get_data`. -/
structure IndexOut where
  price : ℚ
  change : ℚ
  change_pct : ℚ
deriving DecidableEq

/-- The per-commodity JSON objects inside `get_data`'s `mcx` map. -/
structure McxOut where
  price : ℚ
  change : ℚ
  change_pct : ℚ
  lot_size : ℕ
  unit : String
deriving DecidableEq

/-- The `pnl` JSON object of `get_data`. -/
structure PnlOut where
  realized : ℚ
  unrealized : ℚ
  total : ℚ
deriving DecidableEq

/-- The `stats` JSON object of `get_data`. -/
structure StatsOut where
  trades_today : ℕ
  win_rate : ℚ
  open_positions : ℕ
deriving DecidableEq

/-- One element of the `positions` JSON array of `get_data`. -/
structure PositionOut where
  symbol : String
  type : String
  qty : ℚ
  avg_price : ℚ
  ltp : ℚ
  change : ℚ
  change_pct : ℚ
  pnl : ℚ
  pnl_pct : ℚ
  source : String
  exchange : String
deriving DecidableEq

/-- The snapshot dictionary returned by `TradingDataSimulator.get_data`. -/
structure Snapshot where
  timestamp : String
  data_source : String
  broker_connected : Bool
  nifty : IndexOut
  banknifty : IndexOut
  mcx : List (String × McxOut)
  pnl : PnlOut
  stats : StatsOut
  positions : List PositionOut
deriving DecidableEq

/-- The keys of the JSON object literal that `get_data` returns, in source
order. -/
def snapshotKeys : Snapshot → List String := fun _ =>
  ["timestamp", "data_source", "broker_connected", "nifty", "banknifty", "mcx",
   "pnl", "stats", "positions"]

/-- The per-commodity entry built inside `get_data`'s `for symbol, data in
self.mcx_prices.items():` loop. -/
def mcxOut (d : McxEntry) : McxOut :=
  let change := d.price - d.base
  let change_pct := if d.base > 0 then change / d.base * 100 else 0
  { price := round2 d.price, change := round2 change, change_pct := round2 change_pct,
    lot_size := d.lot_size, unit := d.unit }

/-- The per-position entry of `get_data`'s `positions` list comprehension
(`p.get(k, default)` reads become `Option.getD`). -/
def positionOut (p : Position) : PositionOut :=
  { symbol := p.symbol, type := p.type, qty := p.qty, avg_price := round2 p.avg_price,
    ltp := round2 (p.ltp.getD p.avg_price), change := round2 (p.change.getD 0),
    change_pct := round2 (p.change_pct.getD 0), pnl := round2 (p.pnl.getD 0),
    pnl_pct := round2 (p.pnl_pct.getD 0), source := p.source, exchange := p.exchange }

/-- `TradingDataSimulator.get_data`. -/
def getData (s : TradingDataSimulator) : Snapshot :=
  let total_unrealized := (s.positions.map (fun p => p.pnl.getD 0)).sum
  let total_pnl := s.realized_pnl + total_unrealized
  { timestamp := s.last_update
    data_source := if s.use_real_data then "LIVE" else "SIMULATED"
    broker_connected := s.is_connected
    nifty :=
      { price := round2 s.nifty_price
        change := round2 (s.nifty_price - s.nifty_base)
        change_pct := round2 ((s.nifty_price - s.nifty_base) / s.nifty_base * 100) }
    banknifty :=
      { price := round2 s.banknifty_price
        change := round2 (s.banknifty_price - s.banknifty_base)
        change_pct := round2 ((s.banknifty_price - s.banknifty_base) / s.banknifty_base * 100) }
    mcx := s.mcx_prices.map (fun p => (p.1.toLower, mcxOut p.2))
    pnl := { realized := round2 s.realized_pnl, unrealized := round2 total_unrealized,
             total := round2 total_pnl }
    stats := { trades_today := s.trades_today, win_rate := 60.0,
               open_positions := s.positions.length }
    positions := s.positions.map positionOut }

/-- The body `do_GET` writes: either the `DASHBOARD_HTML` page (contents
elided as pure UI markup), a JSON-serialised snapshot, or nothing. -/
inductive ResponseBody where
  | page : ResponseBody
  | jsonData : Snapshot → ResponseBody
  | empty : ResponseBody
deriving DecidableEq

/-- Status line and the explicitly sent headers and body of one response. -/
structure HttpResponse where
  status : ℕ
  headers : List (String × String)
  body : ResponseBody
deriving DecidableEq

/-- One GET request: its path plus the ambient inputs (fetch capability and
random draws) that the refresh it may trigger would consume. -/
structure GetRequest where
  path : String
  fetch : String → Option ℚ
  dn : ℚ
  db : ℚ
  dm : String → ℚ
  u : ℕ → ℚ
  now : String

/-- `DashboardHandler.do_GET`: returns the state after handling the request,
the response written, and the number of `simulator.update()` calls the
handler performed while producing it. -/
def doGET (r : GetRequest) (s : TradingDataSimulator) :
    TradingDataSimulator × HttpResponse × ℕ :=
  if r.path = "/" then
    (s, ⟨200, [("Content-type", "text/html")], ResponseBody.page⟩, 0)
  else if r.path = "/api/data" then
    let s1 := update r.fetch r.dn r.db r.dm r.u r.now s
    (s1, ⟨200, [("Content-type", "application/json"),
                ("Access-Control-Allow-Origin", "*")],
          ResponseBody.jsonData (getData s1)⟩, 1)
  else
    (s, ⟨404, [], ResponseBody.empty⟩, 0)

/-- The single-threaded request loop: requests are served one at a time
against the shared simulator state. -/
def runServer (s : TradingDataSimulator) : List GetRequest → TradingDataSimulator
  | [] => s
  | r :: rest => runServer (doGET r s).1 rest

/-- The instruments whose prices the producer tracks: the two indices and the
keys of `self.mcx_prices`. -/
def trackedInstruments (s : TradingDataSimulator) : List String :=
  "NIFTY" :: "BANKNIFTY" :: s.mcx_prices.map Prod.fst

/-- The currently tracked price of an instrument (`none` for an untracked
identifier). -/
def trackedPrice (s : TradingDataSimulator) (i : String) : Option ℚ :=
  if i = "NIFTY" then some s.nifty_price
  else if i = "BANKNIFTY" then some s.banknifty_price
  else (lookupMcx s.mcx_prices i).map McxEntry.price

/-- The identity fields of a position — exactly those that
`_update_positions` never writes. -/
def positionIdentity (p : Position) : String × String × ℚ × ℚ × String × String :=
  (p.symbol, p.type, p.qty, p.avg_price, p.source, p.exchange)

/-- `n` successive refreshes from the initial state, the `k`-th refresh
drawing its fetch results and random inputs from the given streams. -/
def runUpdates (F : ℕ → String → Option ℚ) (DN DB : ℕ → ℚ) (DM : ℕ → String → ℚ)
    (U : ℕ → ℕ → ℚ) (TS : ℕ → String) : ℕ → TradingDataSimulator
  | 0 => initState
  | n + 1 => update (F n) (DN n) (DB n) (DM n) (U n) (TS n) (runUpdates F DN DB DM U TS n)


/-- A constant fetch stream that always reports "unavailable". -/
def fetchNone : String → Option ℚ := fun _ => none

/-- Total number of `simulator.update()` calls performed while serving a list
of requests in order. -/
def runServerUpdates (s : TradingDataSimulator) : List GetRequest → ℕ
  | [] => 0
  | r :: rest => (doGET r s).2.2 + runServerUpdates (doGET r s).1 rest

/-- Whether the snapshot reports price `v` for instrument `i`: the `nifty` and
`banknifty` objects carry their own `price` field, a commodity appears in the
`mcx` map under its lower-cased symbol. -/
def snapshotHasPrice (d : Snapshot) (i : String) (v : ℚ) : Prop :=
  if i = "NIFTY" then d.nifty.price = v
  else if i = "BANKNIFTY" then d.banknifty.price = v
  else ∃ o : McxOut, (i.toLower, o) ∈ d.mcx ∧ o.price = v

/-- The effect of one fetch result on one tracked commodity entry, as
`_fetch_real_data` applies it (a value of `0` is falsy, hence dropped). -/
def applyFetch : Option ℚ → McxEntry → McxEntry
  | some v, e => if v ≠ 0 then { e with price := v } else e
  | none, e => e

/-- The effect of one fetch result on one tracked price. -/
def priceAfterFetch : Option ℚ → ℚ → ℚ
  | some v, cur => if v ≠ 0 then v else cur
  | none, cur => cur

/-- The state of the concrete C1 scenario: one LONG position with
`avg_price = 100`, `qty = 10` whose underlying commodity trades at `110`, and
one SHORT position with `avg_price = 100`, `qty = 10` whose underlying trades
at `90`; the refresh therefore sets their LTPs to `110` and `90`. -/
def c1ScenarioState : TradingDataSimulator :=
  { initState with
    mcx_prices := [("CRUDEOIL", ⟨110, 110, 100, "BBL"⟩), ("GOLD", ⟨90, 90, 100, "10GM"⟩)]
    positions := [{ symbol := "CRUDEOILFUT", type := "LONG", qty := 10, avg_price := 100,
                    source := "PAPER", exchange := "MCX" },
                  { symbol := "GOLDFUT", type := "SHORT", qty := 10, avg_price := 100,
                    source := "PAPER", exchange := "MCX" }] }

/-- The C1 scenario state after one refresh (fetch capability unavailable, so
the tracked commodity prices are untouched). -/
def c1ScenarioAfter : TradingDataSimulator :=
  update fetchNone 0 0 (fun _ => 0) (fun _ => 0) "09:30:00" c1ScenarioState

/-- The first position of the C1 scenario as the refresh rewrites it. -/
def c1WitnessPos : Position :=
  updateOnePosition [("CRUDEOIL", ⟨110, 110, 100, "BBL"⟩), ("GOLD", ⟨90, 90, 100, "10GM"⟩)] 0
    { symbol := "CRUDEOILFUT", type := "LONG", qty := 10, avg_price := 100,
      source := "PAPER", exchange := "MCX" }

/-- A GET request for the data route, with inert refresh inputs. -/
def reqData : GetRequest :=
  { path := "/api/data", fetch := fetchNone, dn := 0, db := 0, dm := fun _ => 0,
    u := fun _ => 0, now := "" }

/-- A GET request for the static page. -/
def reqRoot : GetRequest :=
  { path := "/", fetch := fetchNone, dn := 0, db := 0, dm := fun _ => 0,
    u := fun _ => 0, now := "" }

/-- A GET request for an unknown path. -/
def reqUnknown : GetRequest :=
  { path := "/unknown", fetch := fetchNone, dn := 0, db := 0, dm := fun _ => 0,
    u := fun _ => 0, now := "" }

/-- One synthetic refresh step drawing `-20` for NIFTY (the lower end of the
code's own `random.uniform(-20, 20)` range) and `0` for the other draws. -/
def simStepC3 : TradingDataSimulator → TradingDataSimulator :=
  simulateData (-20) 0 (fun _ => 0)

/-- A fetch capability returning a fixed value for GOLD and for NIFTY and
reporting unavailable for everything else. -/
def c4Fetch : String → Option ℚ := fun i =>
  if i = "GOLD" then some 86000 else if i = "NIFTY" then some 25000 else none

/-- A fetch capability that returns the numeric value 0 for NIFTY, a
three-decimal value for GOLD, and unavailable otherwise. -/
def c4BadFetch : String → Option ℚ := fun i =>
  if i = "NIFTY" then some 0 else if i = "GOLD" then some (86000 + 1 / 1000) else none

/-- The initial state refreshed once against `c4BadFetch`. -/
def c4BadAfter : TradingDataSimulator :=
  update c4BadFetch 0 0 (fun _ => 0) (fun _ => 0) "" initState

/-- A fetch capability that successfully returns the numeric value 0 for
CRUDEOIL and reports unavailable otherwise. -/
def c8Fetch : String → Option ℚ := fun i => if i = "CRUDEOIL" then some 0 else none

/-! ### Helper lemmas -/

theorem round2_intCast (k : ℤ) : round2 ((k : ℚ)) = (k : ℚ) := by
  unfold round2
  rw [show (100 : ℚ) * (k : ℚ) = ((100 * k : ℤ) : ℚ) by push_cast; ring, round_intCast]
  push_cast
  ring

theorem round2_eq_self {q : ℚ} (k : ℤ) (hq : q = (k : ℚ)) : round2 q = q := by
  rw [hq, round2_intCast]

theorem round2_eq_of_bounds (q : ℚ) (k : ℤ) (h1 : (k : ℚ) ≤ 100 * q + 1 / 2)
    (h2 : 100 * q + 1 / 2 < k + 1) : round2 q = (k : ℚ) / 100 := by
  unfold round2
  rw [round_eq, Int.floor_eq_iff.mpr ⟨h1, h2⟩]

theorem round2_sub_intDiv (p : ℚ) (k : ℤ) :
    round2 (p - (k : ℚ) / 100) = round2 p - (k : ℚ) / 100 := by
  unfold round2
  rw [show 100 * (p - (k : ℚ) / 100) = 100 * p - (k : ℚ) by ring, round_sub_int]
  push_cast
  ring

theorem round2_add_intDiv (p : ℚ) (k : ℤ) :
    round2 (p + (k : ℚ) / 100) = round2 p + (k : ℚ) / 100 := by
  have h := round2_sub_intDiv p (-k)
  push_cast at h
  simp only [neg_div, sub_neg_eq_add] at h
  exact h

theorem round2_intDiv (k : ℤ) : round2 ((k : ℚ) / 100) = (k : ℚ) / 100 := by
  have h0 : round2 (0 : ℚ) = 0 := by unfold round2; simp
  have h := round2_add_intDiv 0 k
  rw [zero_add, h0, zero_add] at h
  exact h

theorem round2_add_left_intDiv (k : ℤ) (u : ℚ) :
    round2 ((k : ℚ) / 100 + u) = round2 ((k : ℚ) / 100) + round2 u := by
  rw [add_comm, round2_add_intDiv, round2_intDiv, add_comm]

theorem mem_updatePositionsList {mcx : List (String × McxEntry)} {u : ℕ → ℚ} :
    ∀ {i : ℕ} {l : List Position} {p : Position}, p ∈ updatePositionsList mcx u i l →
      ∃ (j : ℕ) (q : Position), q ∈ l ∧ p = updateOnePosition mcx (u j) q := by
  intro i l
  induction l generalizing i with
  | nil => intro p h; simp [updatePositionsList] at h
  | cons a rest ih =>
      intro p h
      simp only [updatePositionsList, List.mem_cons] at h
      rcases h with h | h
      · exact ⟨i, a, List.mem_cons_self a rest, h⟩
      · obtain ⟨j, q, hq, hp⟩ := ih h
        exact ⟨j, q, List.mem_cons_of_mem _ hq, hp⟩


theorem foldl_fetchMcxStep_none {f : String → Option ℚ} (hf : ∀ i, f i = none) :
    ∀ (keys : List String) (m : List (String × McxEntry)),
      keys.foldl (fetchMcxStep f) m = m := by
  intro keys
  induction keys with
  | nil => intro m; rfl
  | cons k rest ih =>
      intro m
      rw [List.foldl_cons, show fetchMcxStep f m k = m from by simp [fetchMcxStep, hf k]]
      exact ih m

/-- When every fetch is unavailable, `_fetch_real_data` changes nothing. -/
theorem fetchRealData_none {f : String → Option ℚ} (hf : ∀ i, f i = none)
    (s : TradingDataSimulator) : fetchRealData f s = s := by
  simp [fetchRealData, hf, foldl_fetchMcxStep_none hf]

/-! ### C1 — position P&L formulas -/

/-- C1.  After any refresh, every position's stored P&L fields satisfy the
stated formulas: `pnl = (ltp − avg_price) × qty` for a LONG position,
`pnl = (avg_price − ltp) × qty` otherwise (i.e. for SHORT), and
`pnl_pct = pnl / (avg_price × qty) × 100` when `avg_price > 0`, else `0`.
Moreover, in the concrete scenario a LONG position with `avg_price = 100`,
`qty = 10` refreshed to `ltp = 110` serialises to `pnl = 100` and
`pnl_pct = 10`, and a SHORT position with `avg_price = 100`, `qty = 10`
refreshed to `ltp = 90` serialises to `pnl = 100` and `pnl_pct = 10`. -/
theorem c1_pnl_formulas :
    (∀ (fetch : String → Option ℚ) (dn db : ℚ) (dm : String → ℚ) (u : ℕ → ℚ)
       (now : String) (s : TradingDataSimulator) (p : Position),
       p ∈ (update fetch dn db dm u now s).positions →
       ∃ l pn : ℚ,
         p.ltp = some l ∧ p.pnl = some pn ∧
         pn = (if p.type = "LONG" then (l - p.avg_price) * p.qty
               else (p.avg_price - l) * p.qty) ∧
         p.pnl_pct = some (if p.avg_price > 0 then pn / (p.avg_price * p.qty) * 100
                           else 0)) ∧
    (getData c1ScenarioAfter).positions.map
        (fun p => (p.type, p.avg_price, p.qty, p.ltp, p.pnl, p.pnl_pct)) =
      [("LONG", 100, 10, 110, 100, 10), ("SHORT", 100, 10, 90, 100, 10)] := by
  constructor
  · intro fetch dn db dm u now s p hp
    simp only [update, updatePositions] at hp
    obtain ⟨j, q, hq, rfl⟩ := mem_updatePositionsList hp
    exact ⟨_, _, rfl, rfl, rfl, rfl⟩
  · have htok : c1ScenarioState.access_token ≠ "" := by decide
    have hnone : ∀ i, fetchNone i = none := fun _ => rfl
    have step1 : c1ScenarioAfter =
        { updatePositions (fun _ => 0) c1ScenarioState with last_update := "09:30:00" } := by
      show update fetchNone 0 0 (fun _ => 0) (fun _ => 0) "09:30:00" c1ScenarioState = _
      unfold update
      rw [if_pos htok, fetchRealData_none hnone]
    have hex1 : extractUnderlying "CRUDEOILFUT" = "CRUDEOIL" := rfl
    have hex2 : extractUnderlying "GOLDFUT" = "GOLD" := rfl
    have hlk1 : lookupMcx [("CRUDEOIL", ⟨110, 110, 100, "BBL"⟩), ("GOLD", ⟨90, 90, 100, "10GM"⟩)]
        "CRUDEOIL" = some ⟨110, 110, 100, "BBL"⟩ := rfl
    have hlk2 : lookupMcx [("CRUDEOIL", ⟨110, 110, 100, "BBL"⟩), ("GOLD", ⟨90, 90, 100, "10GM"⟩)]
        "GOLD" = some ⟨90, 90, 100, "10GM"⟩ := rfl
    have r110 : round2 (110 : ℚ) = 110 := round2_eq_self 110 (by norm_num)
    have r100 : round2 (100 : ℚ) = 100 := round2_eq_self 100 (by norm_num)
    have r90 : round2 (90 : ℚ) = 90 := round2_eq_self 90 (by norm_num)
    have r10 : round2 (10 : ℚ) = 10 := round2_eq_self 10 (by norm_num)
    rw [step1]
    simp only [getData, positionOut, updatePositions, updatePositionsList, updateOnePosition,
      positionLtp, c1ScenarioState, initState, hex1, hex2, hlk1, hlk2, List.map_cons,
      List.map_nil, String.reduceEq]
    norm_num [r110, r100, r90, r10, String.reduceEq]

/-- Witness for C1: the LONG scenario position after the refresh satisfies the
formula conjunction at a concrete input. -/
theorem c1_pnl_formulas_witness :
    ∃ l pn : ℚ,
      c1WitnessPos.ltp = some l ∧ c1WitnessPos.pnl = some pn ∧
      pn = (if c1WitnessPos.type = "LONG"
            then (l - c1WitnessPos.avg_price) * c1WitnessPos.qty
            else (c1WitnessPos.avg_price - l) * c1WitnessPos.qty) ∧
      c1WitnessPos.pnl_pct = some (if c1WitnessPos.avg_price > 0
        then pn / (c1WitnessPos.avg_price * c1WitnessPos.qty) * 100 else 0) :=
  c1_pnl_formulas.1 fetchNone 0 0 (fun _ => 0) (fun _ => 0) "09:30:00"
    c1ScenarioState c1WitnessPos (by
      have hnone : ∀ i, fetchNone i = none := fun _ => rfl
      simp [c1WitnessPos, update, updatePositions, updatePositionsList,
        fetchRealData_none hnone, c1ScenarioState, initState, hardcodedToken,
        String.reduceEq])


/-! ### Frame lemmas for the fetch and HTTP layers -/

theorem fetchRealData_frame (f : String → Option ℚ) (s : TradingDataSimulator) :
    (fetchRealData f s).positions = s.positions ∧
    (fetchRealData f s).access_token = s.access_token ∧
    (fetchRealData f s).realized_pnl = s.realized_pnl ∧
    (fetchRealData f s).nifty_base = s.nifty_base ∧
    (fetchRealData f s).banknifty_base = s.banknifty_base ∧
    (fetchRealData f s).trades_today = s.trades_today ∧
    (fetchRealData f s).is_connected = s.is_connected := by
  unfold fetchRealData
  cases f "NIFTY" <;> cases f "BANKNIFTY" <;> dsimp only [] <;> (try split_ifs) <;>
    exact ⟨rfl, rfl, rfl, rfl, rfl, rfl, rfl⟩

theorem fetchRealData_mcx (f : String → Option ℚ) (s : TradingDataSimulator) :
    (fetchRealData f s).mcx_prices =
      (s.mcx_prices.map Prod.fst).foldl (fetchMcxStep f) s.mcx_prices := by
  unfold fetchRealData
  cases f "NIFTY" <;> cases f "BANKNIFTY" <;> dsimp only [] <;> (try split_ifs) <;> rfl

theorem positionIdentity_updateOnePosition (mcx : List (String × McxEntry)) (v : ℚ)
    (q : Position) : positionIdentity (updateOnePosition mcx v q) = positionIdentity q := rfl

theorem updatePositionsList_map_identity (mcx : List (String × McxEntry)) (u : ℕ → ℚ) :
    ∀ (i : ℕ) (l : List Position),
      (updatePositionsList mcx u i l).map positionIdentity = l.map positionIdentity := by
  intro i l
  induction l generalizing i with
  | nil => rfl
  | cons a rest ih =>
      simp [updatePositionsList, positionIdentity_updateOnePosition, ih]

theorem update_positions_identity (f : String → Option ℚ) (dn db : ℚ) (dm : String → ℚ)
    (u : ℕ → ℚ) (now : String) (s : TradingDataSimulator) :
    (update f dn db dm u now s).positions.map positionIdentity =
      s.positions.map positionIdentity := by
  unfold update
  by_cases htok : s.access_token ≠ ""
  · rw [if_pos htok]
    show (updatePositionsList (fetchRealData f s).mcx_prices u 0
      (fetchRealData f s).positions).map positionIdentity = _
    rw [updatePositionsList_map_identity, (fetchRealData_frame f s).1]
  · rw [if_neg htok]
    show (updatePositionsList (simulateData dn db dm s).mcx_prices u 0
      (simulateData dn db dm s).positions).map positionIdentity = _
    rw [updatePositionsList_map_identity]
    rfl

theorem doGET_state (r : GetRequest) (s : TradingDataSimulator) :
    (doGET r s).1 =
      if r.path = "/api/data" then update r.fetch r.dn r.db r.dm r.u r.now s else s := by
  unfold doGET
  by_cases h1 : r.path = "/"
  · simp [h1]
  · by_cases h2 : r.path = "/api/data" <;> simp [h1, h2]


/-! ### C2 — upstream-unavailable fallback -/

/-- C2.  If the injected fetch capability reports unavailable for every
instrument on every attempt, then after any number of refreshes from process
start the snapshot reports `data_source = "SIMULATED"`.  The modelled
`update` is a total function (every failure mode of the Python fetch wrappers
is collapsed to `none` before it reaches the producer), so a refresh never
raises to its caller. -/
theorem c2_unavailable_fallback (F : ℕ → String → Option ℚ) (DN DB : ℕ → ℚ)
    (DM : ℕ → String → ℚ) (U : ℕ → ℕ → ℚ) (TS : ℕ → String)
    (hF : ∀ n i, F n i = none) :
    ∀ n, (getData (runUpdates F DN DB DM U TS n)).data_source = "SIMULATED" := by
  have flag : ∀ n, (runUpdates F DN DB DM U TS n).use_real_data = false := by
    intro n
    induction n with
    | zero => rfl
    | succ n ih =>
        show (update (F n) (DN n) (DB n) (DM n) (U n) (TS n)
          (runUpdates F DN DB DM U TS n)).use_real_data = false
        unfold update
        by_cases htok : (runUpdates F DN DB DM U TS n).access_token ≠ ""
        · rw [if_pos htok, fetchRealData_none (hF n)]
          simpa [updatePositions] using ih
        · rw [if_neg htok]
          simp [simulateData, updatePositions]
  intro n
  simp [getData, flag n]

/-- Witness for C2 at the all-unavailable fetch stream, after two refreshes. -/
theorem c2_unavailable_fallback_witness :
    (getData (runUpdates (fun _ _ => none) (fun _ => 0) (fun _ => 0) (fun _ _ => 0)
      (fun _ _ => 0) (fun _ => "") 2)).data_source = "SIMULATED" :=
  c2_unavailable_fallback (fun _ _ => none) (fun _ => 0) (fun _ => 0) (fun _ _ => 0)
    (fun _ _ => 0) (fun _ => "") (fun _ _ => rfl) 2

/-! ### C6 — routing -/

/-- C6.  `GET /` answers 200 with the static dashboard page and its
content-type header; `GET /api/data` answers 200 with content-type
`application/json`, a CORS header allowing any origin, and a JSON body whose
object carries the `timestamp`, `pnl` and `positions` keys; any other path
answers 404 with an empty body. -/
theorem c6_routing (r : GetRequest) (s : TradingDataSimulator) :
    (r.path = "/" →
       (doGET r s).2.1 = ⟨200, [("Content-type", "text/html")], ResponseBody.page⟩) ∧
    (r.path = "/api/data" →
       (doGET r s).2.1.status = 200 ∧
       ("Content-type", "application/json") ∈ (doGET r s).2.1.headers ∧
       ("Access-Control-Allow-Origin", "*") ∈ (doGET r s).2.1.headers ∧
       ∃ d : Snapshot, (doGET r s).2.1.body = ResponseBody.jsonData d ∧
         "timestamp" ∈ snapshotKeys d ∧ "pnl" ∈ snapshotKeys d ∧
         "positions" ∈ snapshotKeys d) ∧
    (r.path ≠ "/" → r.path ≠ "/api/data" →
       (doGET r s).2.1 = ⟨404, [], ResponseBody.empty⟩) := by
  refine ⟨?_, ?_, ?_⟩
  · intro h
    unfold doGET
    rw [if_pos h]
  · intro h
    have h1 : ¬ r.path = "/" := by rw [h]; decide
    unfold doGET
    rw [if_neg h1, if_pos h]
    exact ⟨rfl, by simp, by simp, _, rfl, by simp [snapshotKeys], by simp [snapshotKeys],
      by simp [snapshotKeys]⟩
  · intro h1 h2
    unfold doGET
    rw [if_neg h1, if_neg h2]

/-- Witness for C6 at the three concrete requests. -/
theorem c6_routing_witness :
    (doGET reqRoot initState).2.1 =
      ⟨200, [("Content-type", "text/html")], ResponseBody.page⟩ ∧
    (doGET reqData initState).2.1.status = 200 ∧
    ("Access-Control-Allow-Origin", "*") ∈ (doGET reqData initState).2.1.headers ∧
    (doGET reqUnknown initState).2.1 = ⟨404, [], ResponseBody.empty⟩ :=
  ⟨(c6_routing reqRoot initState).1 rfl,
   ((c6_routing reqData initState).2.1 rfl).1,
   ((c6_routing reqData initState).2.1 rfl).2.2.1,
   (c6_routing reqUnknown initState).2.2 (by decide) (by decide)⟩

/-! ### C7 — one refresh per data request -/

/-- C7.  A request to the data route performs exactly one `update()` call,
the state it responds from is exactly the updated state, and the body it
writes is the snapshot of that already-updated state; every other request
performs zero `update()` calls and leaves the state untouched.  Consequently
a request run performs exactly one refresh per data-route request. -/
theorem c7_refresh_per_data_request :
    (∀ (r : GetRequest) (s : TradingDataSimulator),
       (doGET r s).2.2 = (if r.path = "/api/data" then 1 else 0) ∧
       (r.path = "/api/data" →
         (doGET r s).1 = update r.fetch r.dn r.db r.dm r.u r.now s ∧
         (doGET r s).2.1.body = ResponseBody.jsonData (getData ((doGET r s).1))) ∧
       (r.path ≠ "/api/data" → (doGET r s).1 = s)) ∧
    (∀ (s : TradingDataSimulator) (reqs : List GetRequest),
       runServerUpdates s reqs = reqs.countP (fun r => r.path == "/api/data")) := by
  have hcount : ∀ (r : GetRequest) (s : TradingDataSimulator),
      (doGET r s).2.2 = (if r.path = "/api/data" then 1 else 0) := by
    intro r s
    unfold doGET
    by_cases h1 : r.path = "/"
    · simp [h1]
    · by_cases h2 : r.path = "/api/data" <;> simp [h1, h2]
  refine ⟨fun r s => ⟨hcount r s, ?_, ?_⟩, ?_⟩
  · intro h
    have h1 : ¬ r.path = "/" := by rw [h]; decide
    unfold doGET
    rw [if_neg h1, if_pos h]
    exact ⟨rfl, rfl⟩
  · intro h
    rw [doGET_state, if_neg h]
  · intro s reqs
    induction reqs generalizing s with
    | nil => rfl
    | cons r rest ih =>
        show (doGET r s).2.2 + runServerUpdates (doGET r s).1 rest = _
        rw [hcount, ih, List.countP_cons]
        by_cases h : r.path = "/api/data" <;> simp [h, Nat.add_comm]

/-- Witness for C7: the data request performs one refresh and responds from
the refreshed state; the static-page request performs none. -/
theorem c7_refresh_per_data_request_witness :
    (doGET reqData initState).2.2 = 1 ∧
    (doGET reqData initState).1 =
      update reqData.fetch reqData.dn reqData.db reqData.dm reqData.u reqData.now initState ∧
    (doGET reqData initState).2.1.body =
      ResponseBody.jsonData (getData ((doGET reqData initState).1)) ∧
    (doGET reqRoot initState).1 = initState := by
  have h := c7_refresh_per_data_request.1 reqData initState
  have h2 := c7_refresh_per_data_request.1 reqRoot initState
  exact ⟨by rw [h.1]; rfl, (h.2.1 rfl).1, (h.2.1 rfl).2, h2.2.2 (by decide)⟩

/-! ### C9 — positions are a frame for every route -/

/-- C9.  Serving any request (hence also the refresh it may perform) keeps
the positions list at the same length with the same identity fields
(`symbol`, `type`, `qty`, `avg_price`, `source`, `exchange`) in the same
order — only the derived `ltp`/`change`/`change_pct`/`pnl`/`pnl_pct` fields
are rewritten — and no request of a whole run removes or alters a position's
identity: the client-side close affordance has no server-side counterpart. -/
theorem c9_positions_frame :
    (∀ (r : GetRequest) (s : TradingDataSimulator),
       ((doGET r s).1).positions.map positionIdentity = s.positions.map positionIdentity ∧
       ((doGET r s).1).positions.length = s.positions.length) ∧
    (∀ (s : TradingDataSimulator) (reqs : List GetRequest),
       (runServer s reqs).positions.map positionIdentity = s.positions.map positionIdentity ∧
       (runServer s reqs).positions.length = s.positions.length) := by
  have hlen : ∀ (a b : List Position),
      a.map positionIdentity = b.map positionIdentity → a.length = b.length := by
    intro a b h
    have h2 := congrArg List.length h
    simpa using h2
  have hone : ∀ (r : GetRequest) (s : TradingDataSimulator),
      ((doGET r s).1).positions.map positionIdentity = s.positions.map positionIdentity := by
    intro r s
    rw [doGET_state]
    by_cases h : r.path = "/api/data"
    · rw [if_pos h, update_positions_identity]
    · rw [if_neg h]
  refine ⟨fun r s => ⟨hone r s, hlen _ _ (hone r s)⟩, ?_⟩
  intro s reqs
  induction reqs generalizing s with
  | nil => exact ⟨rfl, rfl⟩
  | cons r rest ih =>
      have hstep : (runServer s (r :: rest)).positions.map positionIdentity =
          s.positions.map positionIdentity := by
        show (runServer (doGET r s).1 rest).positions.map positionIdentity = _
        rw [(ih ((doGET r s).1)).1, hone r s]
      exact ⟨hstep, hlen _ _ hstep⟩

/-! ### C10 — P&L aggregate -/

/-- C10.  In every snapshot the `pnl` aggregate satisfies: `unrealized` is
(the 2-decimal serialisation of) the sum over all positions of their stored
`pnl`, counting `0` for a position lacking one; `realized` is the stored
realized P&L; and, with the producer's stored realized constant (2500.00),
the serialised `total` equals serialised `realized` plus serialised
`unrealized` exactly. -/
theorem c10_pnl_aggregate (s : TradingDataSimulator)
    (h : s.realized_pnl = initState.realized_pnl) :
    (getData s).pnl.unrealized = round2 ((s.positions.map (fun p => p.pnl.getD 0)).sum) ∧
    (getData s).pnl.realized = round2 s.realized_pnl ∧
    (getData s).pnl.total =
      round2 (s.realized_pnl + (s.positions.map (fun p => p.pnl.getD 0)).sum) ∧
    (getData s).pnl.total = (getData s).pnl.realized + (getData s).pnl.unrealized := by
  refine ⟨rfl, rfl, rfl, ?_⟩
  have h25 : s.realized_pnl = ((250000 : ℤ) : ℚ) / 100 := by
    rw [h]
    norm_num [initState]
  show round2 (s.realized_pnl + (s.positions.map (fun p => p.pnl.getD 0)).sum) =
    round2 s.realized_pnl + round2 ((s.positions.map (fun p => p.pnl.getD 0)).sum)
  rw [h25, round2_add_left_intDiv]

/-- Witness for C10 at the initial state. -/
theorem c10_pnl_aggregate_witness :
    (getData initState).pnl.unrealized =
      round2 ((initState.positions.map (fun p => p.pnl.getD 0)).sum) ∧
    (getData initState).pnl.realized = round2 initState.realized_pnl ∧
    (getData initState).pnl.total =
      round2 (initState.realized_pnl + (initState.positions.map (fun p => p.pnl.getD 0)).sum) ∧
    (getData initState).pnl.total =
      (getData initState).pnl.realized + (getData initState).pnl.unrealized :=
  c10_pnl_aggregate initState rfl

/-! ### C5 — instrument change formulas -/

/-- C5.  For every instrument in every snapshot: the serialised `change`
field equals the serialised `price` minus the reference `base` exactly, and
the serialised `change_pct` is the 2-decimal serialisation of
`change / base * 100` computed from the tracked price (with `0` when the base
is not positive, which covers `base = 0`).  The theorem holds for arbitrary
tracked prices with the process's reference bases, so each derived field is a
pure function of the entity's current and reference price, recomputed every
refresh, never carried over. -/
theorem c5_change_formulas (s : TradingDataSimulator)
    (hn : s.nifty_base = initState.nifty_base)
    (hb : s.banknifty_base = initState.banknifty_base)
    (hm : s.mcx_prices.map (fun p => (p.1, p.2.base)) =
          initMcxPrices.map (fun p => (p.1, p.2.base))) :
    ((getData s).nifty.change = (getData s).nifty.price - s.nifty_base ∧
     (getData s).nifty.change_pct =
       round2 ((s.nifty_price - s.nifty_base) / s.nifty_base * 100)) ∧
    ((getData s).banknifty.change = (getData s).banknifty.price - s.banknifty_base ∧
     (getData s).banknifty.change_pct =
       round2 ((s.banknifty_price - s.banknifty_base) / s.banknifty_base * 100)) ∧
    (∀ p ∈ s.mcx_prices, ∃ o : McxOut,
       ((p : String × McxEntry).1.toLower, o) ∈ (getData s).mcx ∧
       o.price = round2 p.2.price ∧
       o.change = o.price - p.2.base ∧
       o.change_pct = round2 (if p.2.base > 0
         then (p.2.price - p.2.base) / p.2.base * 100 else 0)) := by
  have hn' : s.nifty_base = ((2520050 : ℤ) : ℚ) / 100 := by
    rw [hn]; norm_num [initState]
  have hb' : s.banknifty_base = ((5280075 : ℤ) : ℚ) / 100 := by
    rw [hb]; norm_num [initState]
  refine ⟨⟨?_, rfl⟩, ⟨?_, rfl⟩, ?_⟩
  · show round2 (s.nifty_price - s.nifty_base) = round2 s.nifty_price - s.nifty_base
    rw [hn', round2_sub_intDiv]
  · show round2 (s.banknifty_price - s.banknifty_base) =
      round2 s.banknifty_price - s.banknifty_base
    rw [hb', round2_sub_intDiv]
  · intro p hp
    have hmem := List.mem_map_of_mem (fun q => ((q : String × McxEntry).1, q.2.base)) hp
    rw [hm] at hmem
    simp [initMcxPrices] at hmem
    obtain ⟨k, hk⟩ : ∃ k : ℤ, p.2.base = (k : ℚ) / 100 := by
      rcases hmem with ⟨-, h⟩ | ⟨-, h⟩ | ⟨-, h⟩ | ⟨-, h⟩ | ⟨-, h⟩ | ⟨-, h⟩ | ⟨-, h⟩
      · exact ⟨575500, by rw [h]; norm_num⟩
      · exact ⟨8500000, by rw [h]; norm_num⟩
      · exact ⟨8520000, by rw [h]; norm_num⟩
      · exact ⟨9500000, by rw [h]; norm_num⟩
      · exact ⟨9500000, by rw [h]; norm_num⟩
      · exact ⟨28000, by rw [h]; norm_num⟩
      · exact ⟨85000, by rw [h]; norm_num⟩
    refine ⟨mcxOut p.2, List.mem_map_of_mem _ hp, rfl, ?_, rfl⟩
    show round2 (p.2.price - p.2.base) = round2 p.2.price - p.2.base
    rw [hk, round2_sub_intDiv]

/-- Witness for C5 at the initial state, instantiated for NIFTY and the
CRUDEOIL commodity entry. -/
theorem c5_change_formulas_witness :
    ((getData initState).nifty.change = (getData initState).nifty.price - initState.nifty_base) ∧
    (∃ o : McxOut, ("CRUDEOIL".toLower, o) ∈ (getData initState).mcx ∧
      o.price = round2 (5755.0 : ℚ) ∧
      o.change = o.price - (5755.0 : ℚ) ∧
      o.change_pct = round2 (if (5755.0 : ℚ) > 0
        then ((5755.0 : ℚ) - 5755.0) / 5755.0 * 100 else 0)) := by
  have h := c5_change_formulas initState rfl rfl rfl
  exact ⟨h.1.1, h.2.2 ("CRUDEOIL", ⟨5755.0, 5755.0, 100, "BBL"⟩)
    (by simp [initState, initMcxPrices])⟩

/-! ### C3 — synthetic movement bounds -/

/-- C3 (amended).  Under synthetic movement, each MCX commodity price becomes
`max (base * 0.8) (price + delta)` — so after every refresh it is at least
80% of its base, whatever the draw — and its base is preserved; the index
prices receive their uniform draws added directly, with no floor applied. -/
theorem c3_mcx_floor (dn db : ℚ) (dm : String → ℚ) (s : TradingDataSimulator) :
    ((simulateData dn db dm s).nifty_price = s.nifty_price + dn ∧
     (simulateData dn db dm s).banknifty_price = s.banknifty_price + db) ∧
    (∀ p ∈ (simulateData dn db dm s).mcx_prices,
       (p : String × McxEntry).2.base * 0.8 ≤ p.2.price ∧
       ∃ q ∈ s.mcx_prices, (q : String × McxEntry).1 = p.1 ∧ q.2.base = p.2.base ∧
         p.2.price = max (q.2.base * 0.8) (q.2.price + dm p.1)) := by
  refine ⟨⟨rfl, rfl⟩, ?_⟩
  intro p hp
  simp only [simulateData] at hp
  obtain ⟨q, hq, rfl⟩ := List.mem_map.mp hp
  exact ⟨le_max_left _ _, q, hq, rfl, rfl, rfl⟩

/-- Witness for C3 at the initial state with a draw of `+1` for every
commodity, instantiated at the CRUDEOIL entry. -/
theorem c3_mcx_floor_witness :
    (5755.0 : ℚ) * 0.8 ≤ max ((5755.0 : ℚ) * 0.8) (5755.0 + 1) ∧
    ∃ q ∈ initState.mcx_prices, (q : String × McxEntry).1 = "CRUDEOIL" ∧
      q.2.base = (5755.0 : ℚ) ∧
      (max ((5755.0 : ℚ) * 0.8) (5755.0 + 1) : ℚ) =
        max (q.2.base * 0.8) (q.2.price + 1) :=
  by
  have hmem : (("CRUDEOIL", ⟨5755.0, 5755.0, 100, "BBL"⟩) : String × McxEntry) ∈
      initState.mcx_prices := by simp [initState, initMcxPrices]
  exact (c3_mcx_floor 0 0 (fun _ => 1) initState).2
    ("CRUDEOIL", ⟨max ((5755.0 : ℚ) * 0.8) (5755.0 + 1), 5755.0, 100, "BBL"⟩)
    (show _ ∈ initState.mcx_prices.map
        (fun p => ((p : String × McxEntry).1,
          { p.2 with price := max (p.2.base * 0.8) (p.2.price + (fun _ => (1 : ℚ)) p.1) }))
      from List.mem_map_of_mem _ hmem)

theorem simStepC3_iter :
    ∀ k : ℕ, (simStepC3^[k] initState).nifty_price = 25200.50 - 20 * (k : ℚ) := by
  intro k
  induction k with
  | zero => norm_num [initState]
  | succ k ih =>
      rw [Function.iterate_succ_apply']
      show (simulateData (-20) 0 (fun _ => 0) (simStepC3^[k] initState)).nifty_price = _
      rw [show ∀ t : TradingDataSimulator,
        (simulateData (-20) 0 (fun _ => 0) t).nifty_price = t.nifty_price + (-20)
        from fun t => rfl, ih]
      push_cast
      ring

/-- Counterexample for C3 as stated: the producer also tracks the index
prices, but no floor is applied to them; drawing `-20` (a legal
`random.uniform(-20, 20)` value) on every one of 1261 successive synthetic
refreshes leaves NIFTY at `-19.5`, strictly below 80% of its base and even
below zero. -/
theorem c3_counterexample :
    (simStepC3^[1261] initState).nifty_price < initState.nifty_base * 0.8 ∧
    (simStepC3^[1261] initState).nifty_price < 0 := by
  rw [simStepC3_iter]
  constructor <;> norm_num [initState]

/-! ### C4 and C8 — upstream-backed refresh -/

theorem lookupMcx_nil (k : String) : lookupMcx [] k = none := rfl

theorem lookupMcx_cons (k0 : String) (e0 : McxEntry) (m : List (String × McxEntry))
    (k : String) :
    lookupMcx ((k0, e0) :: m) k = if k0 = k then some e0 else lookupMcx m k := by
  by_cases h : k0 = k
  · simp [lookupMcx, List.find?_cons_of_pos, h]
  · simp [lookupMcx, List.find?_cons_of_neg, h]

theorem setMcxPrice_cons (k0 : String) (e0 : McxEntry) (m : List (String × McxEntry))
    (sym : String) (v : ℚ) :
    setMcxPrice ((k0, e0) :: m) sym v =
      (if k0 = sym then (k0, { e0 with price := v }) else (k0, e0)) :: setMcxPrice m sym v := by
  by_cases h : k0 = sym <;> simp [setMcxPrice, h]

theorem lookupMcx_setMcxPrice_self (m : List (String × McxEntry)) (sym : String) (v : ℚ) :
    lookupMcx (setMcxPrice m sym v) sym =
      (lookupMcx m sym).map (fun e => { e with price := v }) := by
  induction m with
  | nil => rfl
  | cons a m ih =>
      obtain ⟨k0, e0⟩ := a
      rw [setMcxPrice_cons]
      by_cases h : k0 = sym
      · rw [if_pos h, lookupMcx_cons, if_pos h, lookupMcx_cons, if_pos h]
        rfl
      · rw [if_neg h, lookupMcx_cons, if_neg h, lookupMcx_cons, if_neg h]
        exact ih

theorem lookupMcx_setMcxPrice_ne (m : List (String × McxEntry)) (sym k : String) (v : ℚ)
    (h : k ≠ sym) :
    lookupMcx (setMcxPrice m sym v) k = lookupMcx m k := by
  induction m with
  | nil => rfl
  | cons a m ih =>
      obtain ⟨k0, e0⟩ := a
      rw [setMcxPrice_cons]
      by_cases h0 : k0 = sym
      · have hk : ¬ k0 = k := by rw [h0]; exact (Ne.symm h)
        rw [if_pos h0, lookupMcx_cons, if_neg hk, lookupMcx_cons, if_neg hk]
        exact ih
      · by_cases hk : k0 = k
        · rw [if_neg h0, lookupMcx_cons, if_pos hk, lookupMcx_cons, if_pos hk]
        · rw [if_neg h0, lookupMcx_cons, if_neg hk, lookupMcx_cons, if_neg hk]
          exact ih

theorem lookupMcx_fetchMcxStep_self (f : String → Option ℚ) (m : List (String × McxEntry))
    (sym : String) :
    lookupMcx (fetchMcxStep f m sym) sym = (lookupMcx m sym).map (applyFetch (f sym)) := by
  unfold fetchMcxStep applyFetch
  cases f sym with
  | none => simp
  | some v =>
      dsimp only []
      by_cases hv : v ≠ 0
      · rw [if_pos hv, lookupMcx_setMcxPrice_self]
        simp [hv]
      · rw [if_neg hv]
        simp [hv]

theorem lookupMcx_fetchMcxStep_ne (f : String → Option ℚ) (m : List (String × McxEntry))
    (sym k : String) (h : k ≠ sym) :
    lookupMcx (fetchMcxStep f m sym) k = lookupMcx m k := by
  unfold fetchMcxStep
  cases f sym with
  | none => rfl
  | some v =>
      dsimp only []
      by_cases hv : v ≠ 0
      · rw [if_pos hv, lookupMcx_setMcxPrice_ne _ _ _ _ h]
      · rw [if_neg hv]

theorem fetchMcxStep_keys (f : String → Option ℚ) (m : List (String × McxEntry))
    (sym : String) :
    (fetchMcxStep f m sym).map Prod.fst = m.map Prod.fst := by
  unfold fetchMcxStep
  cases f sym with
  | none => rfl
  | some v =>
      dsimp only []
      by_cases hv : v ≠ 0
      · rw [if_pos hv]
        unfold setMcxPrice
        rw [List.map_map]
        apply List.map_congr_left
        intro a _
        by_cases h : a.1 = sym <;> simp [h]
      · rw [if_neg hv]

theorem foldl_fetchMcxStep_not_mem (f : String → Option ℚ) :
    ∀ (keys : List String) (m : List (String × McxEntry)) (k : String), k ∉ keys →
      lookupMcx (keys.foldl (fetchMcxStep f) m) k = lookupMcx m k := by
  intro keys
  induction keys with
  | nil => intro m k _; rfl
  | cons a rest ih =>
      intro m k hk
      rw [List.foldl_cons, ih _ _ (fun hmem => hk (List.mem_cons_of_mem _ hmem)),
        lookupMcx_fetchMcxStep_ne _ _ _ _
          (fun he => hk (by rw [he]; exact List.mem_cons_self a rest))]

theorem foldl_fetchMcxStep_count_one (f : String → Option ℚ) :
    ∀ (keys : List String) (m : List (String × McxEntry)) (k : String), k ∈ keys →
      keys.count k = 1 →
      lookupMcx (keys.foldl (fetchMcxStep f) m) k =
        (lookupMcx m k).map (applyFetch (f k)) := by
  intro keys
  induction keys with
  | nil => intro m k hk; exact absurd hk (List.not_mem_nil k)
  | cons a rest ih =>
      intro m k hk hcount
      rw [List.foldl_cons]
      by_cases hak : k = a
      · subst hak
        have hnot : k ∉ rest := by
          rw [List.count_cons_self] at hcount
          exact List.count_eq_zero.mp (by omega)
        rw [foldl_fetchMcxStep_not_mem f rest _ k hnot, lookupMcx_fetchMcxStep_self]
      · have hmem : k ∈ rest := by
          rcases List.mem_cons.mp hk with h | h
          · exact absurd h hak
          · exact h
        have hcount2 : rest.count k = 1 := by
          rw [List.count_cons_of_ne hak] at hcount
          exact hcount
        rw [ih _ _ hmem hcount2, lookupMcx_fetchMcxStep_ne _ _ _ _ hak]

theorem lookupMcx_isSome_of_mem (m : List (String × McxEntry)) (k : String)
    (h : k ∈ m.map Prod.fst) : ∃ e, lookupMcx m k = some e := by
  induction m with
  | nil => simp at h
  | cons a m ih =>
      obtain ⟨k0, e0⟩ := a
      rw [lookupMcx_cons]
      by_cases hk : k0 = k
      · exact ⟨e0, by rw [if_pos hk]⟩
      · rw [if_neg hk]
        apply ih
        rcases List.mem_cons.mp h with h1 | h1
        · exact absurd h1.symm hk
        · exact h1

theorem mem_of_lookupMcx (m : List (String × McxEntry)) (k : String) (e : McxEntry)
    (h : lookupMcx m k = some e) : (k, e) ∈ m := by
  induction m with
  | nil => simp [lookupMcx] at h
  | cons a m ih =>
      obtain ⟨k0, e0⟩ := a
      rw [lookupMcx_cons] at h
      by_cases hk : k0 = k
      · rw [if_pos hk] at h
        obtain rfl := Option.some_injective _ h
        exact hk ▸ List.mem_cons_self _ _
      · rw [if_neg hk] at h
        exact List.mem_cons_of_mem _ (ih h)
theorem price_applyFetch (r : Option ℚ) (e : McxEntry) :
    (applyFetch r e).price = priceAfterFetch r e.price := by
  cases r with
  | none => rfl
  | some v => by_cases hv : v ≠ 0 <;> simp [applyFetch, priceAfterFetch, hv]

theorem fetchRealData_nifty_price (f : String → Option ℚ) (s : TradingDataSimulator) :
    (fetchRealData f s).nifty_price = priceAfterFetch (f "NIFTY") s.nifty_price := by
  unfold fetchRealData priceAfterFetch
  cases f "NIFTY" <;> cases f "BANKNIFTY" <;> dsimp only [] <;> (try split_ifs) <;> rfl

theorem fetchRealData_banknifty_price (f : String → Option ℚ) (s : TradingDataSimulator) :
    (fetchRealData f s).banknifty_price = priceAfterFetch (f "BANKNIFTY") s.banknifty_price := by
  unfold fetchRealData priceAfterFetch
  cases f "NIFTY" <;> cases f "BANKNIFTY" <;> dsimp only [] <;> (try split_ifs) <;> rfl

theorem fetchRealData_flag (f : String → Option ℚ) (s : TradingDataSimulator) (v : ℚ)
    (hv : f "NIFTY" = some v) (h0 : v ≠ 0) :
    (fetchRealData f s).use_real_data = true := by
  unfold fetchRealData
  rw [hv]
  dsimp only []
  rw [if_pos h0]
  cases f "BANKNIFTY" <;> dsimp only [] <;> (try split_ifs) <;> rfl

theorem trackedPrice_fetchRealData (f : String → Option ℚ) (s : TradingDataSimulator)
    (hnod : (s.mcx_prices.map Prod.fst).Nodup) (X : String)
    (hX : X ∈ trackedInstruments s) :
    trackedPrice (fetchRealData f s) X = (trackedPrice s X).map (priceAfterFetch (f X)) := by
  by_cases hN : X = "NIFTY"
  · subst hN
    simp [trackedPrice, fetchRealData_nifty_price]
  · by_cases hB : X = "BANKNIFTY"
    · subst hB
      simp [trackedPrice, fetchRealData_banknifty_price]
    · have hkeys : X ∈ s.mcx_prices.map Prod.fst := by
        unfold trackedInstruments at hX
        rcases List.mem_cons.mp hX with h | h
        · exact absurd h hN
        rcases List.mem_cons.mp h with h2 | h2
        · exact absurd h2 hB
        · exact h2
      have hcount : (s.mcx_prices.map Prod.fst).count X = 1 :=
        List.count_eq_one_of_mem hnod hkeys
      simp only [trackedPrice, if_neg hN, if_neg hB]
      rw [fetchRealData_mcx, foldl_fetchMcxStep_count_one f _ _ _ hkeys hcount]
      obtain ⟨e, he⟩ := lookupMcx_isSome_of_mem _ _ hkeys
      rw [he]
      simp [price_applyFetch]

theorem update_trackedPrice (f : String → Option ℚ) (dn db : ℚ) (dm : String → ℚ)
    (u : ℕ → ℚ) (now : String) (s : TradingDataSimulator) (htok : s.access_token ≠ "")
    (i : String) :
    trackedPrice (update f dn db dm u now s) i = trackedPrice (fetchRealData f s) i := by
  unfold update
  rw [if_pos htok]
  rfl

theorem update_flag (f : String → Option ℚ) (dn db : ℚ) (dm : String → ℚ)
    (u : ℕ → ℚ) (now : String) (s : TradingDataSimulator) (htok : s.access_token ≠ "") :
    (update f dn db dm u now s).use_real_data = (fetchRealData f s).use_real_data := by
  unfold update
  rw [if_pos htok]
  rfl
theorem trackedPrice_isSome (s : TradingDataSimulator) (X : String)
    (hX : X ∈ trackedInstruments s) : ∃ cur, trackedPrice s X = some cur := by
  by_cases hN : X = "NIFTY"
  · exact ⟨s.nifty_price, by simp [trackedPrice, hN]⟩
  · by_cases hB : X = "BANKNIFTY"
    · exact ⟨s.banknifty_price, by simp [trackedPrice, hN, hB]⟩
    · have hkeys : X ∈ s.mcx_prices.map Prod.fst := by
        unfold trackedInstruments at hX
        rcases List.mem_cons.mp hX with h | h
        · exact absurd h hN
        rcases List.mem_cons.mp h with h2 | h2
        · exact absurd h2 hB
        · exact h2
      obtain ⟨e, he⟩ := lookupMcx_isSome_of_mem _ _ hkeys
      exact ⟨e.price, by simp [trackedPrice, hN, hB, he]⟩

/-- C4 (amended).  If the fetch capability returns a nonzero value `V` for a
tracked instrument `X`, then after the next refresh the producer's tracked
price for `X` is exactly `V` and the snapshot's price entry for `X` is `V`
rounded to two decimals; the snapshot's `data_source` reports "LIVE" provided
the NIFTY fetch itself returned a nonzero value (the flag is set only by a
truthy NIFTY fetch). -/
theorem c4_live_value (s : TradingDataSimulator) (f : String → Option ℚ) (dn db : ℚ)
    (dm : String → ℚ) (u : ℕ → ℚ) (now : String) (X : String) (V : ℚ)
    (htok : s.access_token ≠ "") (hnod : (s.mcx_prices.map Prod.fst).Nodup)
    (hX : X ∈ trackedInstruments s) (hf : f X = some V) (hV : V ≠ 0) :
    trackedPrice (update f dn db dm u now s) X = some V ∧
    snapshotHasPrice (getData (update f dn db dm u now s)) X (round2 V) ∧
    (∀ W : ℚ, f "NIFTY" = some W → W ≠ 0 →
       (getData (update f dn db dm u now s)).data_source = "LIVE") := by
  have htp : trackedPrice (update f dn db dm u now s) X = some V := by
    rw [update_trackedPrice f dn db dm u now s htok,
      trackedPrice_fetchRealData f s hnod X hX]
    obtain ⟨cur, hcur⟩ := trackedPrice_isSome s X hX
    rw [hcur]
    simp [priceAfterFetch, hf, hV]
  refine ⟨htp, ?_, ?_⟩
  · unfold snapshotHasPrice
    by_cases hN : X = "NIFTY"
    · rw [if_pos hN]
      have hup : (update f dn db dm u now s).nifty_price = V := by
        have h2 := htp
        rw [hN] at h2
        simpa [trackedPrice] using h2
      show round2 (update f dn db dm u now s).nifty_price = round2 V
      rw [hup]
    · rw [if_neg hN]
      by_cases hB : X = "BANKNIFTY"
      · rw [if_pos hB]
        have hup : (update f dn db dm u now s).banknifty_price = V := by
          have h2 := htp
          rw [hB] at h2
          simpa [trackedPrice, hN] using h2
        show round2 (update f dn db dm u now s).banknifty_price = round2 V
        rw [hup]
      · rw [if_neg hB]
        have h2 := htp
        simp only [trackedPrice, if_neg hN, if_neg hB] at h2
        obtain ⟨e, he, hep⟩ := Option.map_eq_some'.mp h2
        refine ⟨mcxOut e, ?_, ?_⟩
        · show _ ∈ (update f dn db dm u now s).mcx_prices.map
            (fun p => ((p : String × McxEntry).1.toLower, mcxOut p.2))
          exact List.mem_map_of_mem _ (mem_of_lookupMcx _ _ _ he)
        · show round2 e.price = round2 V
          rw [hep]
  · intro W hW hW0
    have hflag : (update f dn db dm u now s).use_real_data = true := by
      rw [update_flag f dn db dm u now s htok]
      exact fetchRealData_flag f s W hW hW0
    simp [getData, hflag]
theorem fetchRealData_flag_zero (f : String → Option ℚ) (s : TradingDataSimulator)
    (h : f "NIFTY" = some 0) :
    (fetchRealData f s).use_real_data = s.use_real_data := by
  unfold fetchRealData
  rw [h]
  dsimp only []
  rw [if_neg (by simp)]
  cases f "BANKNIFTY" <;> dsimp only [] <;> (try split_ifs) <;> rfl

theorem snapshotHasPrice_mcx_of_tracked (s : TradingDataSimulator) (X : String) (V r : ℚ)
    (hN : X ≠ "NIFTY") (hB : X ≠ "BANKNIFTY")
    (h : trackedPrice s X = some V) (hr : round2 V = r) :
    snapshotHasPrice (getData s) X r := by
  unfold snapshotHasPrice
  rw [if_neg hN, if_neg hB]
  simp only [trackedPrice, if_neg hN, if_neg hB] at h
  obtain ⟨e, he, hep⟩ := Option.map_eq_some'.mp h
  refine ⟨mcxOut e, ?_, ?_⟩
  · show _ ∈ s.mcx_prices.map (fun p => ((p : String × McxEntry).1.toLower, mcxOut p.2))
    exact List.mem_map_of_mem _ (mem_of_lookupMcx _ _ _ he)
  · show round2 e.price = r
    rw [hep, hr]

/-- Witness for C4 at the initial state: GOLD fetched as 86000 with NIFTY
also available, giving the fetched value in state and snapshot and a LIVE
data source. -/
theorem c4_live_value_witness :
    trackedPrice (update c4Fetch 0 0 (fun _ => 0) (fun _ => 0) "" initState) "GOLD" =
      some 86000 ∧
    snapshotHasPrice (getData (update c4Fetch 0 0 (fun _ => 0) (fun _ => 0) "" initState))
      "GOLD" (round2 86000) ∧
    (getData (update c4Fetch 0 0 (fun _ => 0) (fun _ => 0) "" initState)).data_source =
      "LIVE" := by
  have h := c4_live_value initState c4Fetch 0 0 (fun _ => 0) (fun _ => 0) "" "GOLD" 86000
    (by decide) (by decide) (by decide) rfl (by simp)
  exact ⟨h.1, h.2.1, h.2.2 25000 rfl (by simp)⟩

/-- Counterexample for C4 as stated: with a capability that returns the
numeric value 0 for NIFTY and 86000.001 for GOLD, the refreshed snapshot
reports `data_source = "SIMULATED"` (not "LIVE"), the NIFTY price is left at
25200.50 instead of the returned 0 (Python truthiness drops a zero price),
and the snapshot's GOLD entry is 86000, not the fetched value exactly
(2-decimal serialisation). -/
theorem c4_counterexample :
    c4BadFetch "NIFTY" = some 0 ∧
    c4BadFetch "GOLD" = some (86000 + 1 / 1000) ∧
    (getData c4BadAfter).data_source = "SIMULATED" ∧
    trackedPrice c4BadAfter "NIFTY" = some 25200.50 ∧ (25200.50 : ℚ) ≠ 0 ∧
    trackedPrice c4BadAfter "GOLD" = some (86000 + 1 / 1000) ∧
    snapshotHasPrice (getData c4BadAfter) "GOLD" 86000 ∧
    (86000 : ℚ) ≠ 86000 + 1 / 1000 := by
  have htok : initState.access_token ≠ "" := by decide
  have hnod : (initState.mcx_prices.map Prod.fst).Nodup := by decide
  have hzero : c4BadFetch "NIFTY" = some 0 := rfl
  have hgold : c4BadFetch "GOLD" = some (86000 + 1 / 1000) := rfl
  have hN : trackedPrice c4BadAfter "NIFTY" = some 25200.50 := by
    rw [c4BadAfter, update_trackedPrice c4BadFetch 0 0 (fun _ => 0) (fun _ => 0) "" initState htok,
      trackedPrice_fetchRealData c4BadFetch initState hnod "NIFTY" (by decide)]
    simp [trackedPrice, priceAfterFetch, hzero]
    rfl
  have hG : trackedPrice c4BadAfter "GOLD" = some (86000 + 1 / 1000) := by
    rw [c4BadAfter, update_trackedPrice c4BadFetch 0 0 (fun _ => 0) (fun _ => 0) "" initState htok,
      trackedPrice_fetchRealData c4BadFetch initState hnod "GOLD" (by decide)]
    have hcur : trackedPrice initState "GOLD" = some 85000 := by
      simp [trackedPrice, initState, initMcxPrices, lookupMcx]
      norm_num
    rw [hcur]
    simp [priceAfterFetch, hgold]
    norm_num
  have hflag : c4BadAfter.use_real_data = false := by
    rw [c4BadAfter, update_flag c4BadFetch 0 0 (fun _ => 0) (fun _ => 0) "" initState htok,
      fetchRealData_flag_zero c4BadFetch initState hzero]
    rfl
  refine ⟨hzero, hgold, by simp [getData, hflag], hN, by norm_num, hG, ?_, by norm_num⟩
  refine snapshotHasPrice_mcx_of_tracked c4BadAfter "GOLD" (86000 + 1 / 1000) 86000
    (by decide) (by decide) hG ?_
  rw [round2_eq_of_bounds (86000 + 1 / 1000) 8600000 (by norm_num) (by norm_num)]
  norm_num
/-- C8 (amended).  During an upstream-backed refresh each tracked instrument
is fetched exactly once (the call trace counts each identifier once); a fetch
returning a nonzero value overwrites exactly that instrument's tracked price
with the fetched value; an unavailable fetch — and likewise a fetch returning
the falsy value 0 — leaves the previous tracked price exactly unchanged; and
the positions are untouched by the fetch phase. -/
theorem c8_single_attempt (f : String → Option ℚ) (s : TradingDataSimulator)
    (hnod : (s.mcx_prices.map Prod.fst).Nodup)
    (hn : "NIFTY" ∉ s.mcx_prices.map Prod.fst)
    (hb : "BANKNIFTY" ∉ s.mcx_prices.map Prod.fst) :
    (∀ X ∈ trackedInstruments s, (fetchCalls s).count X = 1) ∧
    (∀ X ∈ trackedInstruments s, ∀ V : ℚ, f X = some V → V ≠ 0 →
       trackedPrice (fetchRealData f s) X = some V) ∧
    (∀ X ∈ trackedInstruments s, f X = none →
       trackedPrice (fetchRealData f s) X = trackedPrice s X) ∧
    (∀ X ∈ trackedInstruments s, f X = some 0 →
       trackedPrice (fetchRealData f s) X = trackedPrice s X) ∧
    (fetchRealData f s).positions = s.positions := by
  refine ⟨?_, ?_, ?_, ?_, (fetchRealData_frame f s).1⟩
  · intro X hX
    unfold fetchCalls
    unfold trackedInstruments at hX
    by_cases hN : X = "NIFTY"
    · subst hN
      rw [List.count_cons_self]
      have h1 : ("BANKNIFTY" :: s.mcx_prices.map Prod.fst).count "NIFTY" = 0 := by
        rw [List.count_eq_zero]
        intro hmem
        rcases List.mem_cons.mp hmem with h | h
        · exact absurd h (by decide)
        · exact hn h
      rw [h1]
    · by_cases hB : X = "BANKNIFTY"
      · subst hB
        rw [List.count_cons_of_ne hN, List.count_cons_self,
          List.count_eq_zero.mpr hb]
      · have hkeys : X ∈ s.mcx_prices.map Prod.fst := by
          rcases List.mem_cons.mp hX with h | h
          · exact absurd h hN
          rcases List.mem_cons.mp h with h2 | h2
          · exact absurd h2 hB
          · exact h2
        rw [List.count_cons_of_ne hN, List.count_cons_of_ne hB,
          List.count_eq_one_of_mem hnod hkeys]
  · intro X hX V hf hV
    rw [trackedPrice_fetchRealData f s hnod X hX]
    obtain ⟨cur, hcur⟩ := trackedPrice_isSome s X hX
    rw [hcur]
    simp [priceAfterFetch, hf, hV]
  · intro X hX hf
    rw [trackedPrice_fetchRealData f s hnod X hX]
    obtain ⟨cur, hcur⟩ := trackedPrice_isSome s X hX
    rw [hcur, hf]
    simp [priceAfterFetch]
  · intro X hX hf
    rw [trackedPrice_fetchRealData f s hnod X hX]
    obtain ⟨cur, hcur⟩ := trackedPrice_isSome s X hX
    rw [hcur, hf]
    simp [priceAfterFetch]

/-- Witness for C8 at the initial state against `c4Fetch`: CRUDEOIL is
fetched exactly once, GOLD's successful fetch overwrites its price, and
CRUDEOIL's unavailable fetch leaves its price unchanged. -/
theorem c8_single_attempt_witness :
    (fetchCalls initState).count "CRUDEOIL" = 1 ∧
    trackedPrice (fetchRealData c4Fetch initState) "GOLD" = some 86000 ∧
    trackedPrice (fetchRealData c4Fetch initState) "CRUDEOIL" =
      trackedPrice initState "CRUDEOIL" := by
  have h := c8_single_attempt c4Fetch initState (by decide) (by decide) (by decide)
  exact ⟨h.1 "CRUDEOIL" (by decide), h.2.1 "GOLD" (by decide) 86000 rfl (by simp),
    h.2.2.1 "CRUDEOIL" (by decide) rfl⟩

/-- Counterexample for C8 as stated: the fetch for CRUDEOIL succeeds with
the numeric value 0, yet the tracked price stays 5755 instead of being
overwritten with the fetched value — Python's `if ltp:` treats a zero price
as unavailable. -/
theorem c8_counterexample :
    c8Fetch "CRUDEOIL" = some 0 ∧
    trackedPrice (fetchRealData c8Fetch initState) "CRUDEOIL" = some 5755 ∧
    (5755 : ℚ) ≠ 0 := by
  have hnod : (initState.mcx_prices.map Prod.fst).Nodup := by decide
  refine ⟨rfl, ?_, by norm_num⟩
  rw [trackedPrice_fetchRealData c8Fetch initState hnod "CRUDEOIL" (by decide)]
  have hcur : trackedPrice initState "CRUDEOIL" = some 5755 := by
    simp [trackedPrice, initState, initMcxPrices, lookupMcx]
    norm_num
  rw [hcur]
  simp [c8Fetch, priceAfterFetch]

end AlgotDashboard
